import Mathlib

/-!
Shallow embedding of the particle integration engine of src/src/trac.c
(a Lagrangian particle dispersion model).  The per-particle bodies of the
physics modules are translated as pure functions on an explicit particle
state, with floating-point doubles modelled as real numbers.  External
collaborators declared in the missing header libtrac.h (meteorological
interpolation, climatology lookups, geographic unit conversion) are
passed as function parameters; the small macros and constants from that
header that the claims depend on are modelled from the specification and
marked as such.
-/

namespace MPTrac

/-- Modelled from the spec: C truncation toward zero, the integer cast
used by the FMOD remainder macro of libtrac.h (header not in src). -/
noncomputable def trunc0 (r : ℝ) : ℤ := if 0 ≤ r then ⌊r⌋ else ⌈r⌉

/-- Modelled from the spec: the FMOD(x, y) remainder macro of libtrac.h
(header not in src); truncated-division remainder as in C, used by
module_position to normalize longitude and latitude modulo 360. -/
noncomputable def fmodC (x y : ℝ) : ℝ := x - y * (trunc0 (x / y) : ℝ)

/-- Modelled from the spec: the LIN(x0,y0,x1,y1,x) linear interpolation
macro of libtrac.h (header not in src). -/
noncomputable def LIN (x0 y0 x1 y1 x : ℝ) : ℝ :=
  y0 + (y1 - y0) / (x1 - x0) * (x - x0)

/-- Modelled from the spec: the THETA(p, t) potential temperature macro
of libtrac.h (header not in src). -/
noncomputable def THETA (p t : ℝ) : ℝ := t * (1000 / p) ^ (0.286 : ℝ)

/-- Modelled from the spec: the scale height constant H0 of libtrac.h
(header not in src); only used in the diagnostic vertical velocity. -/
noncomputable def H0 : ℝ := 7

/-- Control parameters: the fields of ctl_t that the integration engine
reads.  Quantity indices are integers with the sentinel -1 meaning
"not requested". -/
structure Ctl where
  direction : ℤ
  t_start : ℝ
  t_stop : ℝ
  dt_met : ℝ
  turb_dx_trop : ℝ
  turb_dx_strat : ℝ
  turb_dz_trop : ℝ
  turb_dz_strat : ℝ
  turb_mesox : ℝ
  turb_mesoz : ℝ
  tdec_trop : ℝ
  tdec_strat : ℝ
  isosurf : ℤ
  psc_h2o : ℝ
  psc_hno3 : ℝ
  qnt_m : ℤ
  qnt_r : ℤ
  qnt_rho : ℤ
  qnt_ps : ℤ
  qnt_pt : ℤ
  qnt_p : ℤ
  qnt_z : ℤ
  qnt_t : ℤ
  qnt_u : ℤ
  qnt_v : ℤ
  qnt_w : ℤ
  qnt_h2o : ℤ
  qnt_o3 : ℤ
  qnt_vh : ℤ
  qnt_vz : ℤ
  qnt_theta : ℤ
  qnt_pv : ℤ
  qnt_tice : ℤ
  qnt_tnat : ℤ
  qnt_tsts : ℤ

/-- One air parcel of the ensemble: dynamical state (time, lon, lat,
pressure), the quantity row q indexed by configuration indices, the
mesoscale fluctuation components, and the isosurface reference value. -/
structure Particle where
  time : ℝ
  lon : ℝ
  lat : ℝ
  p : ℝ
  q : ℤ → ℝ
  up : ℝ
  vp : ℝ
  wp : ℝ
  iso_var : ℝ

/-- The scalar outputs of intpol_met_time at one query point. -/
structure MetVals where
  ps : ℝ
  pt : ℝ
  z : ℝ
  t : ℝ
  u : ℝ
  v : ℝ
  w : ℝ
  pv : ℝ
  h2o : ℝ
  o3 : ℝ

/-- The meteorological accessor (external collaborator): interpolation of
the bracketing snapshot pair at (time, pressure, lon, lat), plus the
uppermost model level met0.p[met0.np - 1] used for the top clamp. -/
structure MetOracle where
  intpol : ℝ → ℝ → ℝ → ℝ → MetVals
  ptop : ℝ

/-- The geographic unit conversion macros DX2DEG, DY2DEG, DZ2DP of
libtrac.h (header not in src), kept abstract as collaborator functions:
no claim depends on their internals. -/
structure Geo where
  dx2deg : ℝ → ℝ → ℝ
  dy2deg : ℝ → ℝ
  dz2dp : ℝ → ℝ → ℝ

/-- Per-particle timestep scheduler (trac.c main loop, lines 272-282):
dt is t minus the particle time when the particle time lies in the
direction-aware window and strictly before t, else 0. -/
noncomputable def timestep_dt (ctl : Ctl) (t tau : ℝ) : ℝ :=
  if 0 ≤ (ctl.direction : ℝ) * (tau - ctl.t_start) ∧
     (ctl.direction : ℝ) * (tau - ctl.t_stop) ≤ 0 ∧
     (ctl.direction : ℝ) * (tau - t) < 0
  then t - tau
  else 0

/-- The scheduler pass over the whole ensemble: it only produces the
per-particle dt array from the particle times and touches nothing
else. -/
noncomputable def module_timestep (ctl : Ctl) (t : ℝ) (times : List ℝ) : List ℝ :=
  times.map (timestep_dt ctl t)

/-- Advection (module_advection): midpoint rule with wind queried at the
particle position and at the projected midpoint; skipped when dt is 0. -/
noncomputable def module_advection_p (met : MetOracle) (geo : Geo) (dt : ℝ)
    (P : Particle) : Particle :=
  if dt ≠ 0 then
    let v := met.intpol P.time P.p P.lon P.lat
    let xm0 := P.lon + geo.dx2deg (0.5 * dt * v.u / 1000) P.lat
    let xm1 := P.lat + geo.dy2deg (0.5 * dt * v.v / 1000)
    let xm2 := P.p + 0.5 * dt * v.w
    let vm := met.intpol (P.time + 0.5 * dt) xm2 xm0 xm1
    { P with
      time := P.time + dt
      lon := P.lon + geo.dx2deg (dt * vm.u / 1000) xm1
      lat := P.lat + geo.dy2deg (dt * vm.v / 1000)
      p := P.p + dt * vm.w }
  else P

/-- The tropopause-relative weighting factor shared by module_decay and
module_diffusion_turb (trac.c lines 477-485 and 690-698): w = 1 below
p0 = pt / 0.866877899, w = 0 above p1 = pt * 0.866877899, linear in
between. -/
noncomputable def tropo_weight (pt p : ℝ) : ℝ :=
  let p1 := pt * 0.866877899
  let p0 := pt / 0.866877899
  if p0 < p then 1
  else if p < p1 then 0
  else LIN p0 1 p1 0 p

/-- Exponential decay of particle mass (module_decay); clim is the
clim_tropo climatology collaborator; skipped when dt is 0. -/
noncomputable def module_decay_p (ctl : Ctl) (clim : ℝ → ℝ → ℝ) (dt : ℝ)
    (P : Particle) : Particle :=
  if dt ≠ 0 then
    let pt := clim P.time P.lat
    let w := tropo_weight pt P.p
    let tdec := w * ctl.tdec_trop + (1 - w) * ctl.tdec_strat
    let m1 := P.q ctl.qnt_m * Real.exp (-dt / tdec)
    { P with q := Function.update P.q ctl.qnt_m m1 }
  else P

/-- Turbulent diffusion (module_diffusion_turb): Gaussian displacements
with blended diffusivities; rs0 rs1 rs2 are the three standard normal
variates of this particle; skipped when dt is 0. -/
noncomputable def module_diffusion_turb_p (ctl : Ctl) (geo : Geo)
    (clim : ℝ → ℝ → ℝ) (dt rs0 rs1 rs2 : ℝ) (P : Particle) : Particle :=
  if dt ≠ 0 then
    let pt := clim P.time P.lat
    let w := tropo_weight pt P.p
    let dx := w * ctl.turb_dx_trop + (1 - w) * ctl.turb_dx_strat
    let dz := w * ctl.turb_dz_trop + (1 - w) * ctl.turb_dz_strat
    let P1 :=
      if 0 < dx then
        let sigma := Real.sqrt (2 * dx * |dt|)
        { P with
          lon := P.lon + geo.dx2deg (rs0 * sigma / 1000) P.lat
          lat := P.lat + geo.dy2deg (rs1 * sigma / 1000) }
      else P
    if 0 < dz then
      let sigma := Real.sqrt (2 * dz * |dt|)
      { P1 with p := P1.p + geo.dz2dp (rs2 * sigma / 1000) P1.p }
    else P1
  else P

/-- Temporal correlation coefficient of the mesoscale fluctuations
(trac.c line 615). -/
noncomputable def meso_r (ctl : Ctl) (dt : ℝ) : ℝ :=
  1 - 2 * |dt| / ctl.dt_met

/-- Innovation scale of the mesoscale fluctuations (trac.c line 616). -/
noncomputable def meso_r2 (ctl : Ctl) (dt : ℝ) : ℝ :=
  Real.sqrt (1 - meso_r ctl dt * meso_r ctl dt)

/-- Mesoscale diffusion (module_diffusion_meso): first-order
autoregressive update of the fluctuation components.  usig, vsig, wsig
stand for the cached wind standard deviations of the enclosing grid
cell (the cache recomputation writes only ensemble-level cache arrays,
never particle state).  Skipped when dt is 0. -/
noncomputable def module_diffusion_meso_p (ctl : Ctl) (geo : Geo)
    (usig vsig wsig : ℝ) (dt rs0 rs1 rs2 : ℝ) (P : Particle) : Particle :=
  if dt ≠ 0 then
    let r := meso_r ctl dt
    let r2 := meso_r2 ctl dt
    let P1 :=
      if 0 < ctl.turb_mesox then
        let up := r * P.up + r2 * rs0 * ctl.turb_mesox * usig
        let Pa := { P with up := up,
                           lon := P.lon + geo.dx2deg (up * dt / 1000) P.lat }
        let vp := r * Pa.vp + r2 * rs1 * ctl.turb_mesox * vsig
        { Pa with vp := vp, lat := Pa.lat + geo.dy2deg (vp * dt / 1000) }
      else P
    if 0 < ctl.turb_mesoz then
      let wp := r * P1.wp + r2 * rs2 * ctl.turb_mesoz * wsig
      { P1 with wp := wp, p := P1.p + wp * dt }
    else P1
  else P

/-- Sedimentation (module_sedi): Cunningham-corrected Stokes fall
velocity applied as a pressure shift; ra, kb, g0 are the physical
constants RA, KB, G0 of libtrac.h; skipped when dt is 0. -/
noncomputable def module_sedi_p (ctl : Ctl) (met : MetOracle) (geo : Geo)
    (ra kb g0 : ℝ) (dt : ℝ) (P : Particle) : Particle :=
  if dt ≠ 0 then
    let A := (1.249 : ℝ)
    let B := (0.42 : ℝ)
    let C := (0.87 : ℝ)
    let m := (4.8096e-26 : ℝ)
    let p := 100 * P.p
    let r_p := 1e-6 * P.q ctl.qnt_r
    let rho_p := P.q ctl.qnt_rho
    let T := (met.intpol P.time P.p P.lon P.lat).t
    let rho := p / (ra * T)
    let eta := 1.8325e-5 * (416.16 / (T + 120)) * (T / 296.16) ^ (1.5 : ℝ)
    let v := Real.sqrt (8 * kb * T / (Real.pi * m))
    let lambda := 2 * eta / (rho * v)
    let K := lambda / r_p
    let G := 1 + K * (A + B * Real.exp (-C / K))
    let v_p := 2 * r_p ^ 2 * (rho_p - rho) * g0 / (9 * eta) * G
    { P with p := P.p + geo.dz2dp (v_p * dt / 1000) P.p }
  else P

/-- One pass of the latitude reflection loop body of module_position
(trac.c lines 976-985): both conditionals run in sequence. -/
noncomputable def latBody (s : ℝ × ℝ) : ℝ × ℝ :=
  let s1 := if 90 < s.2 then (s.1 + 180, 180 - s.2) else s
  if s1.2 < -90 then (s1.1 + 180, -180 - s1.2) else s1

/-- The latitude reflection while loop with explicit fuel; the guard is
the loop condition lat < -90 or lat > 90. -/
noncomputable def latLoop : ℕ → ℝ × ℝ → ℝ × ℝ
  | 0, s => s
  | n + 1, s => if s.2 < -90 ∨ 90 < s.2 then latLoop n (latBody s) else s

/-- The longitude while loop adding 360 while lon < -180, with fuel. -/
noncomputable def lonLoopUp : ℕ → ℝ → ℝ
  | 0, x => x
  | n + 1, x => if x < -180 then lonLoopUp n (x + 360) else x

/-- The longitude while loop subtracting 360 while lon >= 180, with
fuel. -/
noncomputable def lonLoopDown : ℕ → ℝ → ℝ
  | 0, x => x
  | n + 1, x => if 180 ≤ x then lonLoopDown n (x - 360) else x

/-- Position and boundary enforcement (module_position): modulo-360
reduction, pole reflection, longitude wrap, and the pressure clamps
against the model top and the interpolated surface pressure.  The
while loops are run with fuel 2, which is shown sufficient (the loop
state stabilizes there) in the latitude termination theorem below.
Skipped when dt is 0. -/
noncomputable def module_position_p (met : MetOracle) (dt : ℝ)
    (P : Particle) : Particle :=
  if dt ≠ 0 then
    let lon0 := fmodC P.lon 360
    let lat0 := fmodC P.lat 360
    let s := latLoop 2 (lon0, lat0)
    let lon1 := lonLoopDown 2 (lonLoopUp 2 s.1)
    let lat1 := s.2
    let p1 :=
      if P.p < met.ptop then met.ptop
      else if 300 < P.p then
        let ps := (met.intpol P.time P.p lon1 lat1).ps
        if ps < P.p then ps else P.p
      else P.p
    { P with lon := lon1, lat := lat1, p := p1 }
  else P

/-- Isosurface initialization (module_isosurf_init), modes 1-3: store
the particle's current pressure, density, or potential temperature in
iso_var.  Mode 4 reads the external balloon file into the ensemble
series and does not touch per-particle state. -/
noncomputable def module_isosurf_init_p (ctl : Ctl) (met : MetOracle)
    (P : Particle) : Particle :=
  if ctl.isosurf = 1 then { P with iso_var := P.p }
  else if ctl.isosurf = 2 then
    let t := (met.intpol P.time P.p P.lon P.lat).t
    { P with iso_var := P.p / t }
  else if ctl.isosurf = 3 then
    let t := (met.intpol P.time P.p P.lon P.lat).t
    { P with iso_var := THETA P.p t }
  else P

/-- Modelled from the spec: the locate_irr grid index lookup of
libtrac.h (header not in src) restricted to what module_isosurf needs:
the lower bracketing index of x in the first n entries of xs, clamped
to the valid interpolation range [0, n-2]. -/
noncomputable def locateAux (xs : ℕ → ℝ) (x : ℝ) : ℕ → ℕ
  | 0 => 0
  | i + 1 => if xs (i + 1) ≤ x then i + 1 else locateAux xs x i

/-- Modelled from the spec: locate_irr of libtrac.h (see locateAux). -/
noncomputable def locate_irr (xs : ℕ → ℝ) (n : ℕ) (x : ℝ) : ℕ :=
  locateAux xs x (n - 2)

/-- Per-step isosurface enforcement (module_isosurf): overwrite the
particle pressure from the stored target (modes 1-3) or from the
external time series iso_ts, iso_ps with iso_n samples (mode 4);
unconditional, not gated by dt. -/
noncomputable def module_isosurf_p (ctl : Ctl) (met : MetOracle)
    (iso_ts iso_ps : ℕ → ℝ) (iso_n : ℕ) (P : Particle) : Particle :=
  if ctl.isosurf = 1 then { P with p := P.iso_var }
  else if ctl.isosurf = 2 then
    let t := (met.intpol P.time P.p P.lon P.lat).t
    { P with p := P.iso_var * t }
  else if ctl.isosurf = 3 then
    let t := (met.intpol P.time P.p P.lon P.lat).t
    { P with p := 1000 * (P.iso_var / t) ^ (-1 / 0.286 : ℝ) }
  else if ctl.isosurf = 4 then
    if P.time ≤ iso_ts 0 then { P with p := iso_ps 0 }
    else if iso_ts (iso_n - 1) ≤ P.time then { P with p := iso_ps (iso_n - 1) }
    else
      let idx := locate_irr iso_ts iso_n P.time
      let pn := LIN (iso_ts idx) (iso_ps idx) (iso_ts (idx + 1)) (iso_ps (idx + 1)) P.time
      { P with p := pn }
  else P

/-- Diagnostics (module_meteo), everything before the T_STS block:
interpolate the meteorological vector and write each requested quantity
slot; climHno3 is the clim_hno3 climatology collaborator. -/
noncomputable def module_meteo_pre_p (ctl : Ctl) (met : MetOracle)
    (climHno3 : ℝ → ℝ → ℝ → ℝ) (P : Particle) : Particle :=
  let mv := met.intpol P.time P.p P.lon P.lat
  let q := P.q
  let q := if 0 ≤ ctl.qnt_ps then Function.update q ctl.qnt_ps mv.ps else q
  let q := if 0 ≤ ctl.qnt_pt then Function.update q ctl.qnt_pt mv.pt else q
  let q := if 0 ≤ ctl.qnt_p then Function.update q ctl.qnt_p P.p else q
  let q := if 0 ≤ ctl.qnt_z then Function.update q ctl.qnt_z mv.z else q
  let q := if 0 ≤ ctl.qnt_t then Function.update q ctl.qnt_t mv.t else q
  let q := if 0 ≤ ctl.qnt_u then Function.update q ctl.qnt_u mv.u else q
  let q := if 0 ≤ ctl.qnt_v then Function.update q ctl.qnt_v mv.v else q
  let q := if 0 ≤ ctl.qnt_w then Function.update q ctl.qnt_w mv.w else q
  let q := if 0 ≤ ctl.qnt_h2o then Function.update q ctl.qnt_h2o mv.h2o else q
  let q := if 0 ≤ ctl.qnt_o3 then Function.update q ctl.qnt_o3 mv.o3 else q
  let q := if 0 ≤ ctl.qnt_vh then
      Function.update q ctl.qnt_vh (Real.sqrt (mv.u * mv.u + mv.v * mv.v))
    else q
  let q := if 0 ≤ ctl.qnt_vz then
      Function.update q ctl.qnt_vz (-1e3 * H0 / P.p * mv.w)
    else q
  let q := if 0 ≤ ctl.qnt_theta then
      Function.update q ctl.qnt_theta (THETA P.p mv.t)
    else q
  let q := if 0 ≤ ctl.qnt_pv then Function.update q ctl.qnt_pv mv.pv else q
  let q := if 0 ≤ ctl.qnt_tice then
      Function.update q ctl.qnt_tice
        (-2663.5 /
          (Real.logb 10 ((if 0 < ctl.psc_h2o then ctl.psc_h2o else mv.h2o)
            * P.p * 100) - 12.537))
    else q
  let q := if 0 ≤ ctl.qnt_tnat then
      let p_hno3 :=
        if 0 < ctl.psc_hno3 then ctl.psc_hno3 * P.p / 1.333224
        else climHno3 P.time P.lat P.p * 1e-9 * P.p / 1.333224
      let p_h2o := (if 0 < ctl.psc_h2o then ctl.psc_h2o else mv.h2o)
        * P.p / 1.333224
      let a := 0.009179 - 0.00088 * Real.logb 10 p_h2o
      let b := (38.9855 - Real.logb 10 p_hno3 - 2.7836 * Real.logb 10 p_h2o) / a
      let c := -11397.0 / a
      let x1 := (-b + Real.sqrt (b * b - 4 * c)) / 2
      let x2 := (-b - Real.sqrt (b * b - 4 * c)) / 2
      let q := if 0 < x1 then Function.update q ctl.qnt_tnat x1 else q
      if 0 < x2 then Function.update q ctl.qnt_tnat x2 else q
    else q
  { P with q := q }

/-- The T_STS block of module_meteo (trac.c lines 944-948): when T_STS
is requested it reads the quantity slots at indices qnt_tice and
qnt_tnat, with no guard on those indices, and writes their mean. -/
noncomputable def module_meteo_tsts (ctl : Ctl) (P : Particle) : Particle :=
  if 0 ≤ ctl.qnt_tsts then
    let tsts := 0.5 * (P.q ctl.qnt_tice + P.q ctl.qnt_tnat)
    { P with q := Function.update P.q ctl.qnt_tsts tsts }
  else P

/-- Full diagnostics module (module_meteo): the leading writes followed
by the T_STS block. -/
noncomputable def module_meteo_p (ctl : Ctl) (met : MetOracle)
    (climHno3 : ℝ → ℝ → ℝ → ℝ) (P : Particle) : Particle :=
  module_meteo_tsts ctl (module_meteo_pre_p ctl met climHno3 P)

/-- The quantity-row indices read by the T_STS block: qnt_tice and
qnt_tnat whenever T_STS is requested, nothing otherwise. -/
def tstsReadIndices (ctl : Ctl) : List ℤ :=
  if 0 ≤ ctl.qnt_tsts then [ctl.qnt_tice, ctl.qnt_tnat] else []

/-- A baseline configuration used by the concrete witnesses. -/
def ctlBase : Ctl where
  direction := 1
  t_start := 0
  t_stop := 10
  dt_met := 10
  turb_dx_trop := 0
  turb_dx_strat := 0
  turb_dz_trop := 0
  turb_dz_strat := 0
  turb_mesox := 0
  turb_mesoz := 0
  tdec_trop := 1
  tdec_strat := 1
  isosurf := 1
  psc_h2o := 0
  psc_hno3 := 0
  qnt_m := 0
  qnt_r := -1
  qnt_rho := -1
  qnt_ps := -1
  qnt_pt := -1
  qnt_p := -1
  qnt_z := -1
  qnt_t := -1
  qnt_u := -1
  qnt_v := -1
  qnt_w := -1
  qnt_h2o := -1
  qnt_o3 := -1
  qnt_vh := -1
  qnt_vz := -1
  qnt_theta := -1
  qnt_pv := -1
  qnt_tice := -1
  qnt_tnat := -1
  qnt_tsts := -1

/-- A constant meteorological field used by the concrete witnesses. -/
def metTriv : MetOracle where
  intpol := fun _ _ _ _ =>
    { ps := 1000, pt := 100, z := 10, t := 250, u := 0, v := 0, w := 0,
      pv := 0, h2o := 0, o3 := 0 }
  ptop := 0.1

/-- Trivial geographic conversion used by the concrete witnesses. -/
def geoTriv : Geo where
  dx2deg := fun _ _ => 0
  dy2deg := fun _ => 0
  dz2dp := fun _ _ => 0

/-- A concrete particle used by the concrete witnesses. -/
def part0 : Particle where
  time := 0
  lon := 0
  lat := 0
  p := 500
  q := fun _ => 1
  up := 0
  vp := 0
  wp := 0
  iso_var := 0

/-- A particle parked outside the longitude range, used by the position
counterexample. -/
def partLon : Particle := { part0 with lon := 200 }

/-- A particle carrying a negative mass-like quantity, used by the decay
counterexample. -/
def partNeg : Particle := { part0 with q := fun _ => -1, p := 200 }

/-- The baseline configuration with the T_STS diagnostic requested. -/
def ctlTsts : Ctl := { ctlBase with qnt_tsts := 2 }

/-- The baseline configuration in isosurface mode 4. -/
def ctlIso4 : Ctl := { ctlBase with isosurf := 4 }

/-- A particle sitting at the midpoint time of the witness series. -/
def partMid : Particle := { part0 with time := 0.5 }

/-- The strictly increasing two-point time axis of the witness series. -/
def tsW : ℕ → ℝ := fun i => (i : ℝ)

/-- The pressure samples of the witness series. -/
def psW : ℕ → ℝ := fun i => (i : ℝ) + 2

/-!  Helper lemmas. -/

theorem fmodC_range (x y : ℝ) (hy : 0 < y) : -y < fmodC x y ∧ fmodC x y < y := by
  have hy' : y ≠ 0 := ne_of_gt hy
  have hx : x = x / y * y := (div_mul_cancel₀ x hy').symm
  unfold fmodC trunc0
  constructor
  · split_ifs with h
    · have h1 : (⌊x / y⌋ : ℝ) ≤ x / y := Int.floor_le _
      nlinarith
    · have h1 : (⌈x / y⌉ : ℝ) < x / y + 1 := Int.ceil_lt_add_one _
      nlinarith
  · split_ifs with h
    · have h1 : x / y < (⌊x / y⌋ : ℝ) + 1 := Int.lt_floor_add_one _
      nlinarith
    · have h1 : x / y ≤ (⌈x / y⌉ : ℝ) := Int.le_ceil _
      nlinarith

theorem latLoop_zero (s : ℝ × ℝ) : latLoop 0 s = s := rfl

theorem latLoop_succ (n : ℕ) (s : ℝ × ℝ) :
    latLoop (n + 1) s = if s.2 < -90 ∨ 90 < s.2 then latLoop n (latBody s) else s := rfl

theorem latLoop_stable (s : ℝ × ℝ) (h : ¬(s.2 < -90 ∨ 90 < s.2)) :
    ∀ n, latLoop n s = s := by
  intro n
  cases n with
  | zero => rfl
  | succ n => rw [latLoop_succ, if_neg h]

/-- Closed form of one pass of the reflection loop body: both sequential
conditionals of the C loop body resolved by the latitude range. -/
theorem latBody_eq (lon lat : ℝ) :
    latBody (lon, lat) =
      if 90 < lat then
        if 180 - lat < -90 then (lon + 360, lat - 360) else (lon + 180, 180 - lat)
      else if lat < -90 then (lon + 180, -180 - lat) else (lon, lat) := by
  by_cases hA : 90 < lat
  · by_cases hB : 180 - lat < -90
    · simp [latBody, hA, hB, Prod.ext_iff]
      constructor <;> ring
    · simp [latBody, hA, hB]
  · by_cases hB : lat < -90
    · simp [latBody, hA, hB]
    · simp [latBody, hA, hB]

/-- Two passes of the latitude reflection loop land in [-90, 90] and the
longitude has been shifted by 0, 180, or 360 degrees. -/
theorem latLoop_two (lon lat : ℝ) (h1 : -360 < lat) (h2 : lat < 360) :
    (-90 ≤ (latLoop 2 (lon, lat)).2 ∧ (latLoop 2 (lon, lat)).2 ≤ 90) ∧
    lon ≤ (latLoop 2 (lon, lat)).1 ∧ (latLoop 2 (lon, lat)).1 ≤ lon + 360 := by
  have e2 : (2 : ℕ) = 1 + 1 := rfl
  have e1 : (1 : ℕ) = 0 + 1 := rfl
  rcases le_or_lt lat 90 with hc1 | hc1
  · rcases le_or_lt (-90) lat with hc2 | hc2
    · -- already in range: the guard fails at once
      have hg : ¬((lon, lat).2 < -90 ∨ 90 < (lon, lat).2) := by
        show ¬(lat < -90 ∨ 90 < lat)
        push_neg
        exact ⟨by linarith, by linarith⟩
      rw [e2, latLoop_succ, if_neg hg]
      refine ⟨⟨?_, ?_⟩, ?_, ?_⟩ <;> simp <;> linarith
    · rcases le_or_lt (-270) lat with hc3 | hc3
      · -- one reflection across the south pole
        have hg : ((lon, lat).2 < -90 ∨ 90 < (lon, lat).2) :=
          Or.inl (show lat < -90 by linarith)
        have hb : latBody (lon, lat) = (lon + 180, -180 - lat) := by
          rw [latBody_eq, if_neg (show ¬(90:ℝ) < lat by linarith),
            if_pos (show lat < (-90:ℝ) by linarith)]
        have hg2 : ¬((lon + 180, -180 - lat).2 < -90 ∨
            90 < (lon + 180, -180 - lat).2) := by
          show ¬(-180 - lat < -90 ∨ 90 < -180 - lat)
          push_neg
          exact ⟨by linarith, by linarith⟩
        rw [e2, latLoop_succ, if_pos hg, hb, e1, latLoop_succ, if_neg hg2]
        refine ⟨⟨?_, ?_⟩, ?_, ?_⟩ <;> simp <;> linarith
      · -- two loop passes: reflect south, then north
        have hg : ((lon, lat).2 < -90 ∨ 90 < (lon, lat).2) :=
          Or.inl (show lat < -90 by linarith)
        have hb : latBody (lon, lat) = (lon + 180, -180 - lat) := by
          rw [latBody_eq, if_neg (show ¬(90:ℝ) < lat by linarith),
            if_pos (show lat < (-90:ℝ) by linarith)]
        have hg2 : ((lon + 180, -180 - lat).2 < -90 ∨
            90 < (lon + 180, -180 - lat).2) :=
          Or.inr (show (90:ℝ) < -180 - lat by linarith)
        have hb2 : latBody (lon + 180, -180 - lat) =
            (lon + 180 + 180, 180 - (-180 - lat)) := by
          rw [latBody_eq, if_pos (show (90:ℝ) < -180 - lat by linarith),
            if_neg (show ¬(180 - (-180 - lat) < (-90:ℝ)) by push_neg; linarith)]
        rw [e2, latLoop_succ, if_pos hg, hb, e1, latLoop_succ, if_pos hg2, hb2,
          latLoop_zero]
        refine ⟨⟨?_, ?_⟩, ?_, ?_⟩ <;> simp <;> linarith
  · rcases le_or_lt lat 270 with hc2 | hc2
    · -- one reflection across the north pole
      have hg : ((lon, lat).2 < -90 ∨ 90 < (lon, lat).2) :=
        Or.inr (show (90:ℝ) < lat by linarith)
      have hb : latBody (lon, lat) = (lon + 180, 180 - lat) := by
        rw [latBody_eq, if_pos (show (90:ℝ) < lat by linarith),
          if_neg (show ¬(180 - lat < (-90:ℝ)) by push_neg; linarith)]
      have hg2 : ¬((lon + 180, 180 - lat).2 < -90 ∨
          90 < (lon + 180, 180 - lat).2) := by
        show ¬(180 - lat < -90 ∨ 90 < 180 - lat)
        push_neg
        exact ⟨by linarith, by linarith⟩
      rw [e2, latLoop_succ, if_pos hg, hb, e1, latLoop_succ, if_neg hg2]
      refine ⟨⟨?_, ?_⟩, ?_, ?_⟩ <;> simp <;> linarith
    · -- both conditionals fire within the first loop pass
      have hg : ((lon, lat).2 < -90 ∨ 90 < (lon, lat).2) :=
        Or.inr (show (90:ℝ) < lat by linarith)
      have hb : latBody (lon, lat) = (lon + 360, lat - 360) := by
        rw [latBody_eq, if_pos (show (90:ℝ) < lat by linarith),
          if_pos (show 180 - lat < (-90:ℝ) by linarith)]
      have hg2 : ¬((lon + 360, lat - 360).2 < -90 ∨
          90 < (lon + 360, lat - 360).2) := by
        show ¬(lat - 360 < -90 ∨ 90 < lat - 360)
        push_neg
        exact ⟨by linarith, by linarith⟩
      rw [e2, latLoop_succ, if_pos hg, hb, e1, latLoop_succ, if_neg hg2]
      refine ⟨⟨?_, ?_⟩, ?_, ?_⟩ <;> simp <;> linarith

theorem lonLoopUp_two (x : ℝ) (h1 : -360 < x) (h2 : x < 720) :
    -180 ≤ lonLoopUp 2 x ∧ lonLoopUp 2 x < 720 := by
  have e2 : (2 : ℕ) = 1 + 1 := rfl
  have e1 : (1 : ℕ) = 0 + 1 := rfl
  rw [e2, lonLoopUp, e1]
  split_ifs with h3
  · rw [lonLoopUp]
    split_ifs with h4
    · rw [lonLoopUp]; constructor <;> linarith
    · constructor <;> linarith
  · constructor <;> linarith

/-- Splitting fuel of the latitude loop. -/
theorem latLoop_add (m n : ℕ) (s : ℝ × ℝ) :
    latLoop (m + n) s = latLoop n (latLoop m s) := by
  induction m generalizing s with
  | zero => rw [latLoop_zero, Nat.zero_add]
  | succ m ih =>
    have e : m + 1 + n = (m + n) + 1 := by omega
    rw [e, latLoop_succ, latLoop_succ]
    by_cases hg : s.2 < -90 ∨ 90 < s.2
    · rw [if_pos hg, if_pos hg, ih]
    · rw [if_neg hg, if_neg hg, latLoop_stable s hg n]

/-- The modelled locate_irr returns the lower bracketing index on a
strictly monotonic axis. -/
theorem locateAux_eq (xs : ℕ → ℝ) (x : ℝ) (hm : StrictMono xs) :
    ∀ m i, i ≤ m → xs i ≤ x → x < xs (i + 1) → locateAux xs x m = i := by
  intro m
  induction m with
  | zero =>
    intro i hi hle hlt
    have h0 : i = 0 := Nat.le_zero.mp hi
    subst h0
    rfl
  | succ m ih =>
    intro i hi hle hlt
    have e : locateAux xs x (m + 1) =
        if xs (m + 1) ≤ x then m + 1 else locateAux xs x m := rfl
    rw [e]
    by_cases hc : xs (m + 1) ≤ x
    · rw [if_pos hc]
      rcases Nat.eq_or_lt_of_le hi with he | hlt2
      · exact he.symm
      · exfalso
        have hmono : xs (i + 1) ≤ xs (m + 1) := hm.monotone (Nat.succ_le_of_lt hlt2)
        linarith
    · rw [if_neg hc]
      apply ih
      · rcases Nat.eq_or_lt_of_le hi with he | hlt2
        · exact absurd (he ▸ hle) hc
        · exact Nat.lt_succ_iff.mp hlt2
      · exact hle
      · exact hlt

theorem lonLoopDown_two (x : ℝ) (h1 : -180 ≤ x) (h2 : x < 720) :
    -180 ≤ lonLoopDown 2 x ∧ lonLoopDown 2 x < 180 := by
  have e2 : (2 : ℕ) = 1 + 1 := rfl
  have e1 : (1 : ℕ) = 0 + 1 := rfl
  rw [e2, lonLoopDown, e1]
  split_ifs with h3
  · rw [lonLoopDown]
    split_ifs with h4
    · rw [lonLoopDown]; constructor <;> linarith
    · constructor <;> linarith
  · constructor <;> linarith

theorem tropo_c_lt : (0.866877899 : ℝ) < (0.866877899 : ℝ)⁻¹ := by norm_num

theorem tropo_pos_lt (pt : ℝ) (hpt : 0 < pt) :
    pt * 0.866877899 < pt / 0.866877899 := by
  rw [div_eq_mul_inv]
  exact (mul_lt_mul_left hpt).mpr tropo_c_lt

/-- For a positive tropopause pressure the weighting factor is the
clamped linear ramp between the two thresholds. -/
theorem tropo_weight_eq_clamp (pt p : ℝ) (hpt : 0 < pt) :
    tropo_weight pt p =
      max 0 (min 1 ((p - pt * 0.866877899) /
        (pt / 0.866877899 - pt * 0.866877899))) := by
  have hD : (0:ℝ) < pt / 0.866877899 - pt * 0.866877899 := by
    have := tropo_pos_lt pt hpt
    linarith
  simp only [tropo_weight, LIN]
  split_ifs with h1 h2
  · have hX : (1:ℝ) ≤ (p - pt * 0.866877899) /
        (pt / 0.866877899 - pt * 0.866877899) := by
      rw [le_div_iff₀ hD]
      linarith
    rw [min_eq_left hX, max_eq_right (by norm_num : (0:ℝ) ≤ 1)]
  · have hX : (p - pt * 0.866877899) /
        (pt / 0.866877899 - pt * 0.866877899) ≤ 0 := by
      apply div_nonpos_of_nonpos_of_nonneg (by linarith) hD.le
    rw [min_eq_right (le_trans hX (by norm_num)), max_eq_left hX]
  · have hX0 : (0:ℝ) ≤ (p - pt * 0.866877899) /
        (pt / 0.866877899 - pt * 0.866877899) :=
      div_nonneg (by linarith) hD.le
    have hX1 : (p - pt * 0.866877899) /
        (pt / 0.866877899 - pt * 0.866877899) ≤ 1 := by
      rw [div_le_one hD]
      linarith
    rw [min_eq_right hX1, max_eq_right hX0]
    have h1 : pt * 0.866877899 - pt / 0.866877899
        = -(pt / 0.866877899 - pt * 0.866877899) := by ring
    rw [h1, div_neg]
    have h2 : (0 - 1 : ℝ) = -1 := by norm_num
    rw [h2, neg_div, neg_neg, one_div, ← div_eq_inv_mul,
      eq_div_iff (ne_of_gt hD), add_mul, div_mul_cancel₀ _ (ne_of_gt hD)]
    ring

/-- The weighting factor always lies in [0, 1]. -/
theorem tropo_weight_mem (pt p : ℝ) :
    0 ≤ tropo_weight pt p ∧ tropo_weight pt p ≤ 1 := by
  by_cases hpt : 0 < pt
  · rw [tropo_weight_eq_clamp pt p hpt]
    constructor
    · exact le_max_left 0 _
    · apply max_le (by norm_num)
      exact le_trans (min_le_left _ _) (by norm_num)
  · push_neg at hpt
    simp only [tropo_weight, LIN]
    split_ifs with h1 h2
    · norm_num
    · norm_num
    · by_cases hpt0 : pt = 0
      · subst hpt0
        norm_num
      · exfalso
        have hlt : pt < 0 := lt_of_le_of_ne hpt hpt0
        have hflip : pt / 0.866877899 < pt * 0.866877899 := by
          rw [div_eq_mul_inv]
          nlinarith [tropo_c_lt]
        push_neg at h1 h2
        linarith

/-- For a positive tropopause pressure the weighting factor is monotone
in pressure. -/
theorem tropo_weight_mono (pt : ℝ) (hpt : 0 < pt) :
    Monotone (tropo_weight pt) := by
  intro a b hab
  have hD : (0:ℝ) < pt / 0.866877899 - pt * 0.866877899 := by
    have := tropo_pos_lt pt hpt
    linarith
  rw [tropo_weight_eq_clamp pt a hpt, tropo_weight_eq_clamp pt b hpt]
  apply max_le_max le_rfl
  apply min_le_min le_rfl
  exact (div_le_div_iff_of_pos_right hD).mpr (by linarith)

/-- Nonnegativity of the mesoscale radicand is equivalent to the time
increment being bounded by the meteorological update interval. -/
theorem meso_radicand_iff (ctl : Ctl) (dt : ℝ) (h : 0 < ctl.dt_met) :
    0 ≤ 1 - meso_r ctl dt * meso_r ctl dt ↔ |dt| ≤ ctl.dt_met := by
  have habs : 0 ≤ |dt| := abs_nonneg dt
  have hdiv : 2 * |dt| / ctl.dt_met = 2 * (|dt| / ctl.dt_met) := by ring
  unfold meso_r
  rw [hdiv]
  constructor
  · intro hge
    by_contra hgt
    push_neg at hgt
    have h1 : 1 < |dt| / ctl.dt_met := (one_lt_div h).mpr hgt
    nlinarith [h1]
  · intro hle
    have h1 : |dt| / ctl.dt_met ≤ 1 := (div_le_one h).mpr hle
    have h0 : 0 ≤ |dt| / ctl.dt_met := div_nonneg habs h.le
    nlinarith [h1, h0]

/-!  Claim theorems. -/

/-- C1: at each global step time t, the scheduler assigns a particle the
increment dt = t - time exactly when direction*(time - t_start) ≥ 0,
direction*(time - t_stop) ≤ 0 and direction*(time - t) < 0, and dt = 0
otherwise; the scheduler pass is the pure map producing the dt array
from the particle times, its only effect. -/
theorem timestep_scheduler_spec (ctl : Ctl) (t tau : ℝ) (times : List ℝ)
    (i : ℕ) (hi : i < times.length) :
    ((0 ≤ (ctl.direction : ℝ) * (tau - ctl.t_start) ∧
      (ctl.direction : ℝ) * (tau - ctl.t_stop) ≤ 0 ∧
      (ctl.direction : ℝ) * (tau - t) < 0) →
        timestep_dt ctl t tau = t - tau) ∧
    (¬(0 ≤ (ctl.direction : ℝ) * (tau - ctl.t_start) ∧
      (ctl.direction : ℝ) * (tau - ctl.t_stop) ≤ 0 ∧
      (ctl.direction : ℝ) * (tau - t) < 0) →
        timestep_dt ctl t tau = 0) ∧
    (module_timestep ctl t times).length = times.length ∧
    (module_timestep ctl t times).getD i 0 =
      timestep_dt ctl t (times.getD i 0) := by
  refine ⟨fun h => ?_, fun h => ?_, ?_, ?_⟩
  · rw [timestep_dt, if_pos h]
  · rw [timestep_dt, if_neg h]
  · simp [module_timestep]
  · have hi2 : i < (times.map (timestep_dt ctl t)).length := by simpa using hi
    rw [module_timestep, List.getD_eq_getElem _ _ hi2,
      List.getD_eq_getElem _ _ hi, List.getElem_map]

theorem timestep_scheduler_spec_witness :
    (0 : ℕ) < [(3:ℝ)].length ∧
    (((0 ≤ (ctlBase.direction : ℝ) * (3 - ctlBase.t_start) ∧
      (ctlBase.direction : ℝ) * (3 - ctlBase.t_stop) ≤ 0 ∧
      (ctlBase.direction : ℝ) * (3 - 5) < 0) →
        timestep_dt ctlBase 5 3 = 5 - 3) ∧
    (¬(0 ≤ (ctlBase.direction : ℝ) * (3 - ctlBase.t_start) ∧
      (ctlBase.direction : ℝ) * (3 - ctlBase.t_stop) ≤ 0 ∧
      (ctlBase.direction : ℝ) * (3 - 5) < 0) →
        timestep_dt ctlBase 5 3 = 0) ∧
    (module_timestep ctlBase 5 [3]).length = [(3:ℝ)].length ∧
    (module_timestep ctlBase 5 [3]).getD 0 0 =
      timestep_dt ctlBase 5 ([(3:ℝ)].getD 0 0)) :=
  ⟨by norm_num, timestep_scheduler_spec ctlBase 5 3 [3] 0 (by norm_num)⟩

/-- C2: a particle whose dt is 0 in a step is left untouched by
advection, turbulent diffusion, mesoscale diffusion, sedimentation,
position enforcement, and decay: none of its state fields change. -/
theorem modules_skip_zero_dt (ctl : Ctl) (met : MetOracle) (geo : Geo)
    (clim : ℝ → ℝ → ℝ) (usig vsig wsig rs0 rs1 rs2 ra kb g0 dt : ℝ)
    (P : Particle) (h : dt = 0) :
    module_advection_p met geo dt P = P ∧
    module_diffusion_turb_p ctl geo clim dt rs0 rs1 rs2 P = P ∧
    module_diffusion_meso_p ctl geo usig vsig wsig dt rs0 rs1 rs2 P = P ∧
    module_sedi_p ctl met geo ra kb g0 dt P = P ∧
    module_position_p met dt P = P ∧
    module_decay_p ctl clim dt P = P := by
  subst h
  refine ⟨?_, ?_, ?_, ?_, ?_, ?_⟩ <;>
    simp [module_advection_p, module_diffusion_turb_p,
      module_diffusion_meso_p, module_sedi_p, module_position_p,
      module_decay_p]

theorem modules_skip_zero_dt_witness :
    (0 : ℝ) = 0 ∧
    (module_advection_p metTriv geoTriv 0 part0 = part0 ∧
    module_diffusion_turb_p ctlBase geoTriv (fun _ _ => 100) 0 0 0 0 part0 = part0 ∧
    module_diffusion_meso_p ctlBase geoTriv 0 0 0 0 0 0 0 part0 = part0 ∧
    module_sedi_p ctlBase metTriv geoTriv 287.058 1.3806504e-23 9.80665 0 part0 = part0 ∧
    module_position_p metTriv 0 part0 = part0 ∧
    module_decay_p ctlBase (fun _ _ => 100) 0 part0 = part0) :=
  ⟨rfl, modules_skip_zero_dt ctlBase metTriv geoTriv (fun _ _ => 100)
    0 0 0 0 0 0 287.058 1.3806504e-23 9.80665 0 part0 rfl⟩

/-- C9: the radicand of the mesoscale innovation scale r2 is nonnegative
exactly when |dt| is at most the meteorological update interval; under
that precondition r2 is the genuine nonnegative square root, so the
autoregressive fluctuation update is well defined. -/
theorem meso_corr_radicand (ctl : Ctl) (dt : ℝ) (h : 0 < ctl.dt_met) :
    (0 ≤ 1 - meso_r ctl dt * meso_r ctl dt ↔ |dt| ≤ ctl.dt_met) ∧
    (|dt| ≤ ctl.dt_met →
      meso_r2 ctl dt * meso_r2 ctl dt = 1 - meso_r ctl dt * meso_r ctl dt ∧
      0 ≤ meso_r2 ctl dt) := by
  refine ⟨meso_radicand_iff ctl dt h, fun hle => ⟨?_, Real.sqrt_nonneg _⟩⟩
  exact Real.mul_self_sqrt ((meso_radicand_iff ctl dt h).mpr hle)

theorem meso_corr_radicand_witness :
    (0 : ℝ) < ctlBase.dt_met ∧
    ((0 ≤ 1 - meso_r ctlBase 5 * meso_r ctlBase 5 ↔ |(5:ℝ)| ≤ ctlBase.dt_met) ∧
    (|(5:ℝ)| ≤ ctlBase.dt_met →
      meso_r2 ctlBase 5 * meso_r2 ctlBase 5 =
        1 - meso_r ctlBase 5 * meso_r ctlBase 5 ∧
      0 ≤ meso_r2 ctlBase 5)) :=
  ⟨by norm_num [ctlBase], meso_corr_radicand ctlBase 5 (by norm_num [ctlBase])⟩

/-- C10: after the modulo-360 reduction the latitude lies in (-360, 360);
from there two passes of the reflection loop reach [-90, 90], and the
loop has stabilized: any further fuel leaves the state unchanged, so
the while loop terminates for every finite input. -/
theorem lat_reflection_terminates (x lon lat : ℝ) (n : ℕ)
    (h1 : -360 < lat) (h2 : lat < 360) :
    (-360 < fmodC x 360 ∧ fmodC x 360 < 360) ∧
    (-90 ≤ (latLoop 2 (lon, lat)).2 ∧ (latLoop 2 (lon, lat)).2 ≤ 90) ∧
    latLoop (2 + n) (lon, lat) = latLoop 2 (lon, lat) := by
  refine ⟨fmodC_range x 360 (by norm_num), (latLoop_two lon lat h1 h2).1, ?_⟩
  rw [latLoop_add 2 n (lon, lat)]
  apply latLoop_stable
  have hb := (latLoop_two lon lat h1 h2).1
  push_neg
  exact ⟨by linarith [hb.1], by linarith [hb.2]⟩

theorem lat_reflection_terminates_witness :
    (-360 : ℝ) < 350 ∧ (350 : ℝ) < 360 ∧
    ((-360 < fmodC 1000 360 ∧ fmodC 1000 360 < 360) ∧
    (-90 ≤ (latLoop 2 ((0:ℝ), (350:ℝ))).2 ∧
      (latLoop 2 ((0:ℝ), (350:ℝ))).2 ≤ 90) ∧
    latLoop (2 + 5) ((0:ℝ), (350:ℝ)) = latLoop 2 ((0:ℝ), (350:ℝ))) :=
  ⟨by norm_num, by norm_num,
    lat_reflection_terminates 1000 0 350 5 (by norm_num) (by norm_num)⟩

/-- C3 counterexample: module_position is gated on dt ≠ 0, so a particle
with dt = 0 keeps an arbitrary out-of-range longitude: the claimed
bound lon < 180 fails for every particle only when dt = 0 particles
are exempted. -/
theorem position_bounds_cex :
    (module_position_p metTriv 0 partLon).lon = 200 ∧
    ¬((module_position_p metTriv 0 partLon).lon < 180) := by
  have h : module_position_p metTriv 0 partLon = partLon := by
    simp [module_position_p]
  rw [h]
  constructor
  · simp [partLon, part0]
  · simp [partLon, part0]
    norm_num

/-- C3 amended: after module_position runs, every particle with nonzero
dt satisfies -180 ≤ lon < 180 and -90 ≤ lat ≤ 90, for arbitrary finite
input longitude and latitude. -/
theorem position_bounds (met : MetOracle) (dt : ℝ) (P : Particle)
    (h : dt ≠ 0) :
    -180 ≤ (module_position_p met dt P).lon ∧
    (module_position_p met dt P).lon < 180 ∧
    -90 ≤ (module_position_p met dt P).lat ∧
    (module_position_p met dt P).lat ≤ 90 := by
  have hlonr := fmodC_range P.lon 360 (by norm_num)
  have hlatr := fmodC_range P.lat 360 (by norm_num)
  have hll := latLoop_two (fmodC P.lon 360) (fmodC P.lat 360) hlatr.1 hlatr.2
  have hup := lonLoopUp_two ((latLoop 2 (fmodC P.lon 360, fmodC P.lat 360)).1)
    (by linarith [hll.2.1, hlonr.1]) (by linarith [hll.2.2, hlonr.2])
  have hdown := lonLoopDown_two
    (lonLoopUp 2 ((latLoop 2 (fmodC P.lon 360, fmodC P.lat 360)).1))
    hup.1 hup.2
  rw [module_position_p, if_pos h]
  simp only
  exact ⟨hdown.1, hdown.2, hll.1.1, hll.1.2⟩

theorem position_bounds_witness :
    (1 : ℝ) ≠ 0 ∧
    (-180 ≤ (module_position_p metTriv 1 partLon).lon ∧
    (module_position_p metTriv 1 partLon).lon < 180 ∧
    -90 ≤ (module_position_p metTriv 1 partLon).lat ∧
    (module_position_p metTriv 1 partLon).lat ≤ 90) :=
  ⟨by norm_num, position_bounds metTriv 1 partLon (by norm_num)⟩

/-- C4 counterexample: the code constant is 0.866877899, not 0.8669; at
pt = 1 the pressure pt / 0.8669 lies strictly inside the blending
interval, so the weight there is not exactly 1 as the claim states. -/
theorem tropo_weight_cex : tropo_weight 1 (1 / 0.8669) ≠ 1 := by
  simp only [tropo_weight, LIN]
  rw [if_neg (by norm_num), if_neg (by norm_num)]
  norm_num

/-- C4 amended: with the code constant 0.866877899, the weight is
exactly 1 at p = pt / 0.866877899, exactly 0 at p = pt * 0.866877899,
equals the linear ramp (p - pt*c)/(pt/c - pt*c) between the two
thresholds, and is monotone in pressure. -/
theorem tropo_weight_spec (pt p q : ℝ) (hpt : 0 < pt)
    (hp1 : pt * 0.866877899 ≤ p) (hp0 : p ≤ pt / 0.866877899)
    (hpq : p ≤ q) :
    tropo_weight pt (pt / 0.866877899) = 1 ∧
    tropo_weight pt (pt * 0.866877899) = 0 ∧
    tropo_weight pt p = (p - pt * 0.866877899) /
      (pt / 0.866877899 - pt * 0.866877899) ∧
    tropo_weight pt p ≤ tropo_weight pt q := by
  have hD : (0:ℝ) < pt / 0.866877899 - pt * 0.866877899 := by
    have := tropo_pos_lt pt hpt
    linarith
  refine ⟨?_, ?_, ?_, tropo_weight_mono pt hpt hpq⟩
  · rw [tropo_weight_eq_clamp _ _ hpt, div_self (ne_of_gt hD)]
    norm_num
  · rw [tropo_weight_eq_clamp _ _ hpt, sub_self, zero_div]
    norm_num
  · rw [tropo_weight_eq_clamp _ _ hpt]
    have hX0 : (0:ℝ) ≤ (p - pt * 0.866877899) /
        (pt / 0.866877899 - pt * 0.866877899) :=
      div_nonneg (by linarith) hD.le
    have hX1 : (p - pt * 0.866877899) /
        (pt / 0.866877899 - pt * 0.866877899) ≤ 1 := by
      rw [div_le_one hD]
      linarith
    rw [min_eq_right hX1, max_eq_right hX0]

theorem tropo_weight_spec_witness :
    (0:ℝ) < 1 ∧ (1:ℝ) * 0.866877899 ≤ 0.9 ∧
    (0.9:ℝ) ≤ 1 / 0.866877899 ∧ (0.9:ℝ) ≤ 1 ∧
    (tropo_weight 1 (1 / 0.866877899) = 1 ∧
    tropo_weight 1 (1 * 0.866877899) = 0 ∧
    tropo_weight 1 0.9 = (0.9 - 1 * 0.866877899) /
      (1 / 0.866877899 - 1 * 0.866877899) ∧
    tropo_weight 1 0.9 ≤ tropo_weight 1 1) :=
  ⟨by norm_num, by norm_num, by norm_num, by norm_num,
    tropo_weight_spec 1 0.9 1 (by norm_num) (by norm_num) (by norm_num)
      (by norm_num)⟩

/-- C5: isosurface round trip.  After module_isosurf_init and one
module_isosurf call with zero elapsed time and an unchanged field, the
pressure equals the value derived from the stored target: under modes
1, 2 and 3 it is exactly the initial pressure (mode 1 is the plain
identity; modes 2 and 3 invert the stored density and potential
temperature under the physical side conditions of positive temperature
and pressure). -/
theorem isosurf_roundtrip (ctl : Ctl) (met : MetOracle)
    (iso_ts iso_ps : ℕ → ℝ) (iso_n : ℕ) (P : Particle)
    (ht : 0 < (met.intpol P.time P.p P.lon P.lat).t) (hp : 0 < P.p) :
    (ctl.isosurf = 1 →
      (module_isosurf_p ctl met iso_ts iso_ps iso_n
        (module_isosurf_init_p ctl met P)).p = P.p) ∧
    (ctl.isosurf = 2 →
      (module_isosurf_p ctl met iso_ts iso_ps iso_n
        (module_isosurf_init_p ctl met P)).p = P.p) ∧
    (ctl.isosurf = 3 →
      (module_isosurf_p ctl met iso_ts iso_ps iso_n
        (module_isosurf_init_p ctl met P)).p = P.p) := by
  have htne : (met.intpol P.time P.p P.lon P.lat).t ≠ 0 := ne_of_gt ht
  refine ⟨fun h => ?_, fun h => ?_, fun h => ?_⟩
  · simp [module_isosurf_p, module_isosurf_init_p, h]
  · simp [module_isosurf_p, module_isosurf_init_p, h]
    exact div_mul_cancel₀ P.p htne
  · simp [module_isosurf_p, module_isosurf_init_p, h]
    have hX : (0:ℝ) < 1000 / P.p := by positivity
    have e1 : THETA P.p (met.intpol P.time P.p P.lon P.lat).t /
        (met.intpol P.time P.p P.lon P.lat).t = (1000 / P.p) ^ (0.286:ℝ) := by
      rw [THETA, mul_comm, mul_div_assoc, div_self htne, mul_one]
    rw [e1, ← Real.rpow_mul hX.le]
    have e2 : (0.286:ℝ) * (-1 / 0.286) = -1 := by norm_num
    rw [e2, Real.rpow_neg_one, inv_div]
    ring

theorem isosurf_roundtrip_witness :
    (0:ℝ) < (metTriv.intpol part0.time part0.p part0.lon part0.lat).t ∧
    (0:ℝ) < part0.p ∧
    ((ctlBase.isosurf = 1 →
      (module_isosurf_p ctlBase metTriv tsW psW 2
        (module_isosurf_init_p ctlBase metTriv part0)).p = part0.p) ∧
    (ctlBase.isosurf = 2 →
      (module_isosurf_p ctlBase metTriv tsW psW 2
        (module_isosurf_init_p ctlBase metTriv part0)).p = part0.p) ∧
    (ctlBase.isosurf = 3 →
      (module_isosurf_p ctlBase metTriv tsW psW 2
        (module_isosurf_init_p ctlBase metTriv part0)).p = part0.p)) :=
  ⟨by norm_num [metTriv], by norm_num [part0],
    isosurf_roundtrip ctlBase metTriv tsW psW 2 part0
      (by norm_num [metTriv]) (by norm_num [part0])⟩

/-- C7 counterexample: for a particle carrying a negative mass-like
quantity, the decay step strictly increases the stored value, so
mass_after ≤ mass_before fails without a sign assumption. -/
theorem decay_cex :
    partNeg.q ctlBase.qnt_m <
      (module_decay_p ctlBase (fun _ _ => 100) 1 partNeg).q ctlBase.qnt_m := by
  have heval : (module_decay_p ctlBase (fun _ _ => 100) 1 partNeg).q
      ctlBase.qnt_m = -Real.exp (-1) := by
    rw [module_decay_p, if_pos (by norm_num : (1:ℝ) ≠ 0)]
    norm_num [ctlBase, partNeg, part0, tropo_weight, Function.update_same]
  have hexp : Real.exp (-1) < 1 := by
    have h := Real.exp_lt_exp.mpr (show (-1:ℝ) < 0 by norm_num)
    rwa [Real.exp_zero] at h
  have hq : partNeg.q ctlBase.qnt_m = -1 := by norm_num [partNeg, part0]
  rw [heval, hq]
  linarith

/-- C7 amended: for nonnegative mass, dt ≥ 0 and positive tropospheric
and stratospheric lifetimes, the decay update never increases the
mass. -/
theorem decay_nonincreasing (ctl : Ctl) (clim : ℝ → ℝ → ℝ) (dt : ℝ)
    (P : Particle) (hdt : 0 ≤ dt) (htt : 0 < ctl.tdec_trop)
    (hts : 0 < ctl.tdec_strat) (hm : 0 ≤ P.q ctl.qnt_m) :
    (module_decay_p ctl clim dt P).q ctl.qnt_m ≤ P.q ctl.qnt_m := by
  by_cases h : dt = 0
  · subst h
    simp [module_decay_p]
  · have heval : (module_decay_p ctl clim dt P).q ctl.qnt_m
        = P.q ctl.qnt_m * Real.exp (-dt /
            (tropo_weight (clim P.time P.lat) P.p * ctl.tdec_trop +
             (1 - tropo_weight (clim P.time P.lat) P.p) * ctl.tdec_strat)) := by
      rw [module_decay_p, if_pos h]
      simp [Function.update_same]
    have hW := tropo_weight_mem (clim P.time P.lat) P.p
    have htdec : 0 < tropo_weight (clim P.time P.lat) P.p * ctl.tdec_trop +
        (1 - tropo_weight (clim P.time P.lat) P.p) * ctl.tdec_strat := by
      have hmin : 0 < min ctl.tdec_trop ctl.tdec_strat := lt_min htt hts
      nlinarith [mul_le_mul_of_nonneg_left
          (min_le_left ctl.tdec_trop ctl.tdec_strat) hW.1,
        mul_le_mul_of_nonneg_left
          (min_le_right ctl.tdec_trop ctl.tdec_strat)
          (by linarith [hW.2] : (0:ℝ) ≤ 1 - tropo_weight (clim P.time P.lat) P.p)]
    have hx : -dt / (tropo_weight (clim P.time P.lat) P.p * ctl.tdec_trop +
        (1 - tropo_weight (clim P.time P.lat) P.p) * ctl.tdec_strat) ≤ 0 :=
      div_nonpos_of_nonpos_of_nonneg (by linarith) htdec.le
    have hexp : Real.exp (-dt /
        (tropo_weight (clim P.time P.lat) P.p * ctl.tdec_trop +
         (1 - tropo_weight (clim P.time P.lat) P.p) * ctl.tdec_strat)) ≤ 1 := by
      have h2 := Real.exp_le_exp.mpr hx
      rwa [Real.exp_zero] at h2
    rw [heval]
    calc P.q ctl.qnt_m * Real.exp (-dt /
          (tropo_weight (clim P.time P.lat) P.p * ctl.tdec_trop +
           (1 - tropo_weight (clim P.time P.lat) P.p) * ctl.tdec_strat))
        ≤ P.q ctl.qnt_m * 1 := mul_le_mul_of_nonneg_left hexp hm
      _ = P.q ctl.qnt_m := mul_one _

theorem decay_nonincreasing_witness :
    (0:ℝ) ≤ 1 ∧ (0:ℝ) < ctlBase.tdec_trop ∧ (0:ℝ) < ctlBase.tdec_strat ∧
    (0:ℝ) ≤ part0.q ctlBase.qnt_m ∧
    (module_decay_p ctlBase (fun _ _ => 100) 1 part0).q ctlBase.qnt_m ≤
      part0.q ctlBase.qnt_m :=
  ⟨by norm_num, by norm_num [ctlBase], by norm_num [ctlBase],
    by norm_num [part0, ctlBase],
    decay_nonincreasing ctlBase (fun _ _ => 100) 1 part0 (by norm_num)
      (by norm_num [ctlBase]) (by norm_num [ctlBase])
      (by norm_num [part0, ctlBase])⟩

/-- C6: under isosurface mode 4 with a strictly monotonic non-empty
series, enforcement clamps to the first sample at or before the first
time, to the last sample at or after the last time, and linearly
interpolates the bracketing samples otherwise; for a two-point series
the midpoint time yields the mean of the two pressures. -/
theorem isosurf_series_interp (ctl : Ctl) (met : MetOracle)
    (ts ps : ℕ → ℝ) (n : ℕ) (P : Particle) (i : ℕ)
    (hiso : ctl.isosurf = 4) (hmono : StrictMono ts) (hn : 1 ≤ n) :
    (P.time ≤ ts 0 → (module_isosurf_p ctl met ts ps n P).p = ps 0) ∧
    (ts (n - 1) ≤ P.time →
      (module_isosurf_p ctl met ts ps n P).p = ps (n - 1)) ∧
    (i + 2 ≤ n → ts 0 < P.time → P.time < ts (n - 1) →
      ts i ≤ P.time → P.time < ts (i + 1) →
      (module_isosurf_p ctl met ts ps n P).p =
        LIN (ts i) (ps i) (ts (i + 1)) (ps (i + 1)) P.time) ∧
    (n = 2 → ts 0 < P.time → P.time < ts 1 →
      (module_isosurf_p ctl met ts ps n P).p =
        LIN (ts 0) (ps 0) (ts 1) (ps 1) P.time) ∧
    (n = 2 → P.time = (ts 0 + ts 1) / 2 →
      (module_isosurf_p ctl met ts ps n P).p = (ps 0 + ps 1) / 2) := by
  have key : ∀ j, j + 2 ≤ n → ts j ≤ P.time → P.time < ts (j + 1) →
      ¬(P.time ≤ ts 0) → ¬(ts (n - 1) ≤ P.time) →
      (module_isosurf_p ctl met ts ps n P).p =
        LIN (ts j) (ps j) (ts (j + 1)) (ps (j + 1)) P.time := by
    intro j hj hja hjb hA hB
    have hloc : locate_irr ts n P.time = j :=
      locateAux_eq ts P.time hmono (n - 2) j (by omega) hja hjb
    simp [module_isosurf_p, hiso, hA, hB, locate_irr] at *
    simp [hloc]
  refine ⟨fun h1 => ?_, fun h2 => ?_, ?_, ?_, ?_⟩
  · simp [module_isosurf_p, hiso, h1]
  · by_cases h1 : P.time ≤ ts 0
    · rcases Nat.eq_or_lt_of_le hn with he | hlt
      · subst he
        simp [module_isosurf_p, hiso, h1]
      · exfalso
        have hstep : ts 0 < ts (n - 1) := hmono (by omega)
        linarith
    · simp [module_isosurf_p, hiso, h1, h2]
  · intro hin h0 hN h1 h2
    exact key i hin h1 h2 (not_le.mpr h0) (not_le.mpr hN)
  · intro hn2 h0 h1
    subst hn2
    have h1' : P.time < ts (0 + 1) := by simpa using h1
    have hB : ¬(ts (2 - 1) ≤ P.time) := by
      rw [show (2:ℕ) - 1 = 1 from rfl]
      exact not_le.mpr h1
    have hk := key 0 (by norm_num) (le_of_lt h0) h1' (not_le.mpr h0) hB
    simpa using hk
  · intro hn2 hmid
    subst hn2
    have h01 : ts 0 < ts 1 := hmono (by norm_num)
    have h0 : ts 0 < P.time := by rw [hmid]; linarith
    have h1 : P.time < ts 1 := by rw [hmid]; linarith
    have h1' : P.time < ts (0 + 1) := by simpa using h1
    have hB : ¬(ts (2 - 1) ≤ P.time) := by
      rw [show (2:ℕ) - 1 = 1 from rfl]
      exact not_le.mpr h1
    have hk := key 0 (by norm_num) (le_of_lt h0) h1' (not_le.mpr h0) hB
    rw [hk, hmid]
    have hne : ts (0 + 1) - ts 0 ≠ 0 := by
      simp only [zero_add]
      exact ne_of_gt (by linarith)
    rw [LIN]
    simp only [zero_add] at *
    field_simp
    ring

theorem isosurf_series_interp_witness :
    ctlIso4.isosurf = 4 ∧ StrictMono tsW ∧ (1:ℕ) ≤ 2 ∧
    ((partMid.time ≤ tsW 0 →
      (module_isosurf_p ctlIso4 metTriv tsW psW 2 partMid).p = psW 0) ∧
    (tsW (2 - 1) ≤ partMid.time →
      (module_isosurf_p ctlIso4 metTriv tsW psW 2 partMid).p = psW (2 - 1)) ∧
    ((0:ℕ) + 2 ≤ 2 → tsW 0 < partMid.time → partMid.time < tsW (2 - 1) →
      tsW 0 ≤ partMid.time → partMid.time < tsW (0 + 1) →
      (module_isosurf_p ctlIso4 metTriv tsW psW 2 partMid).p =
        LIN (tsW 0) (psW 0) (tsW (0 + 1)) (psW (0 + 1)) partMid.time) ∧
    ((2:ℕ) = 2 → tsW 0 < partMid.time → partMid.time < tsW 1 →
      (module_isosurf_p ctlIso4 metTriv tsW psW 2 partMid).p =
        LIN (tsW 0) (psW 0) (tsW 1) (psW 1) partMid.time) ∧
    ((2:ℕ) = 2 → partMid.time = (tsW 0 + tsW 1) / 2 →
      (module_isosurf_p ctlIso4 metTriv tsW psW 2 partMid).p =
        (psW 0 + psW 1) / 2)) :=
  ⟨by norm_num [ctlIso4, ctlBase],
    fun a b hab => by
      simp only [tsW]
      exact_mod_cast hab,
    by norm_num,
    isosurf_series_interp ctlIso4 metTriv tsW psW 2 partMid 0
      (by norm_num [ctlIso4, ctlBase])
      (fun a b hab => by
        simp only [tsW]
        exact_mod_cast hab)
      (by norm_num)⟩

/-- C8: when T_STS is requested, module_meteo unconditionally reads the
quantity slots at indices qnt_tice and qnt_tnat to form their mean;
those reads lie inside the quantity row only if T_ice and T_NAT are
also requested, and requesting T_STS alone makes the block read the
row at the sentinel index -1. -/
theorem meteo_tsts_reads (ctl : Ctl) (met : MetOracle)
    (climHno3 : ℝ → ℝ → ℝ → ℝ) (P : Particle) (nq : ℕ)
    (h : 0 ≤ ctl.qnt_tsts) :
    (module_meteo_p ctl met climHno3 P).q ctl.qnt_tsts =
      0.5 * ((module_meteo_pre_p ctl met climHno3 P).q ctl.qnt_tice +
             (module_meteo_pre_p ctl met climHno3 P).q ctl.qnt_tnat) ∧
    ctl.qnt_tice ∈ tstsReadIndices ctl ∧
    ctl.qnt_tnat ∈ tstsReadIndices ctl ∧
    ((∀ j ∈ tstsReadIndices ctl, 0 ≤ j ∧ j < (nq : ℤ)) →
      0 ≤ ctl.qnt_tice ∧ 0 ≤ ctl.qnt_tnat) ∧
    (ctl.qnt_tice = -1 → (-1 : ℤ) ∈ tstsReadIndices ctl) := by
  refine ⟨?_, ?_, ?_, fun hall => ?_, fun hi => ?_⟩
  · rw [module_meteo_p, module_meteo_tsts, if_pos h]
    simp [Function.update_same]
  · simp [tstsReadIndices, h]
  · simp [tstsReadIndices, h]
  · exact ⟨(hall _ (by simp [tstsReadIndices, h])).1,
      (hall _ (by simp [tstsReadIndices, h] : ctl.qnt_tnat ∈ tstsReadIndices ctl)).1⟩
  · simp [tstsReadIndices, h, hi]

theorem meteo_tsts_reads_witness :
    (0:ℤ) ≤ ctlTsts.qnt_tsts ∧
    ((module_meteo_p ctlTsts metTriv (fun _ _ _ => 0) part0).q
        ctlTsts.qnt_tsts =
      0.5 * ((module_meteo_pre_p ctlTsts metTriv (fun _ _ _ => 0) part0).q
               ctlTsts.qnt_tice +
             (module_meteo_pre_p ctlTsts metTriv (fun _ _ _ => 0) part0).q
               ctlTsts.qnt_tnat) ∧
    ctlTsts.qnt_tice ∈ tstsReadIndices ctlTsts ∧
    ctlTsts.qnt_tnat ∈ tstsReadIndices ctlTsts ∧
    ((∀ j ∈ tstsReadIndices ctlTsts, 0 ≤ j ∧ j < ((5:ℕ) : ℤ)) →
      0 ≤ ctlTsts.qnt_tice ∧ 0 ≤ ctlTsts.qnt_tnat) ∧
    (ctlTsts.qnt_tice = -1 → (-1 : ℤ) ∈ tstsReadIndices ctlTsts)) :=
  ⟨by norm_num [ctlTsts, ctlBase],
    meteo_tsts_reads ctlTsts metTriv (fun _ _ _ => 0) part0 5
      (by norm_num [ctlTsts, ctlBase])⟩

end MPTrac
